import Mathlib

/- Verification of the your-ai-manager task assistant: a shallow embedding of
its task/routine scheduler tick, tool executors, AI orchestration loop and
conversation history (src/userStore.ts, src/tools.tasks.ts, src/tools.ts,
src/aiService.ts, src/index.ts), with theorems about the embedded code. -/

namespace YAM

/-- JavaScript `Date` value: `some v` is a valid date with millisecond
timestamp `v`, `none` is an Invalid Date (`NaN` time value). -/
abbrev JsDate := Option Int

/-- JS comparison `d <= now` between a Date and a time in milliseconds:
any comparison against an Invalid Date (`NaN`) is false. -/
def jsLe (d : JsDate) (now : Int) : Bool :=
  match d with
  | some v => decide (v ≤ now)
  | none => false

/-- Task record from src/userStore.ts.  `status` and `annoyance` are TS string
literal types, kept as strings; `name` is `string` in TS but is kept optional
because the AddTask executor can store `undefined` in it (no validation). -/
structure Task where
  id : String
  name : Option String
  routineId : Option String
  dueAt : Option JsDate
  requiresAction : Bool
  status : String
  annoyance : String
  pingAt : JsDate
  postponeCount : Nat
  createdAt : Int
  deriving Repr, DecidableEq

/-- Pending-task evaluation of the per-minute scheduler tick (src/index.ts):
the tick only iterates tasks filtered to `status === 'pending'`; for such a
task with `pingAt <= now` the status is set to `'completed'` when
`requiresAction` is false and to `'needs_replanning'` when it is true.
Any other task keeps its status. -/
def tickTaskStatus (now : Int) (t : Task) : String :=
  if t.status == "pending" && jsLe t.pingAt now then
    if t.requiresAction then "needs_replanning" else "completed"
  else
    t.status

/-- Options of the `AIService.streamAIResponse` call the scheduler tick makes
after transitioning a due pending task (src/index.ts, task-ping branch). -/
structure TickInvocation where
  promptIsNoAction : Bool
  addUserToHistory : Bool
  addAssistantToHistory : Bool
  enableToolCalls : Bool
  deriving Repr, DecidableEq

/-- The scheduler tick's orchestration invocation for a due pending task
(src/index.ts): the prompt is `TASK_TRIGGERED_PROMPT_NO_ACTION` exactly when
`requiresAction` is false, and the options are always
`addUserToHistory: false`, `addAssistantToHistory: true`,
`enableToolCalls: true`. -/
def tickPingInvocation (t : Task) : TickInvocation :=
  ⟨!t.requiresAction, false, true, true⟩

/-- Entry of a user's `messageHistory` (src/userStore.ts). -/
structure HistoryMessage where
  role : String
  content : String
  timestamp : Int
  deriving Repr, DecidableEq

/-- The function `addMessageToHistory` of src/userStore.ts, restricted to the
history list it rewrites: push the new entry, then if the history holds more
than 5000 entries keep only the last 5000 (`Array.prototype.slice(-5000)`). -/
def addMessageToHistory (hist : List HistoryMessage) (role content : String)
    (now : Int) : List HistoryMessage :=
  let h := hist ++ [⟨role, content, now⟩]
  if 5000 < h.length then h.drop (h.length - 5000) else h

/-- Annoyance cadence switch of the task re-ping scheduler: the delay in
minutes before the next ping, where `r` is the value of `Math.random()`
(so `0 ≤ r < 1`): high gives `r*4 + 1`, med gives `r*30 + 30`, and low —
which is also the `default` branch — gives `r*60 + 120`. -/
def nextPingMinutes (annoyance : String) (r : Rat) : Rat :=
  if annoyance == "high" then r * 4 + 1
  else if annoyance == "med" then r * 30 + 30
  else r * 60 + 120

/-- The next ping instant: `new Date(now.getTime() + nextPingMinutes * 60000)`. -/
def nextPingAt (now : Rat) (annoyance : String) (r : Rat) : Rat :=
  now + nextPingMinutes annoyance r * 60000

/-- Routine-firing check of the per-minute scheduler tick (src/index.ts):
`lastOcc now` is the most recent theoretical cron occurrence at or before the
tick time `now` (cron-parser's `interval.next()` followed by
`interval.prev()`, abstracted as a function); the routine fires — and one task
is materialized — exactly when `now - lastOcc now <= 60000`. -/
def routineFires (lastOcc : Nat → Nat) (now : Nat) : Bool :=
  decide (now - lastOcc now ≤ 60000)

/-- Number of Tasks materialized for the single firing instant `f` across the
given tick times: each tick whose most recent occurrence is `f` and whose
window check passes creates exactly one task from the routine. -/
def tasksForInstant (lastOcc : Nat → Nat) (ticks : List Nat) (f : Nat) : Nat :=
  (ticks.filter (fun t => routineFires lastOcc t && (lastOcc t == f))).length

/-- Most recent occurrence function of an hourly cron schedule
(fires at minute 0 of every hour). -/
def hourlyLastOcc (now : Nat) : Nat :=
  3600000 * (now / 3600000)

theorem hourlyLastOcc_le (t : Nat) : hourlyLastOcc t ≤ t := by
  unfold hourlyLastOcc
  calc 3600000 * (t / 3600000) = t / 3600000 * 3600000 := Nat.mul_comm _ _
    _ ≤ t := Nat.div_mul_le_self t 3600000

/-- JS truthiness of an optional string argument: `undefined` and the empty
string are falsy.  The executors' validation guards are written
`args.x && !allowed.includes(args.x)`, so they run only on truthy values. -/
def truthyOpt (o : Option String) : Bool :=
  match o with
  | some s => s != ""
  | none => false

/-- Allowed annoyance enumeration (src/tools.tasks.ts). -/
def validAnnoyance (s : String) : Bool :=
  s == "low" || s == "med" || s == "high"

/-- Allowed status enumeration of UpdateTask (src/tools.tasks.ts). -/
def validStatus (s : String) : Bool :=
  s == "pending" || s == "completed" || s == "failed" || s == "needs_replanning"

/-- The `required` list of the AddTask tool's parameter schema
(src/tools.tasks.ts). -/
def AddTask_required : List String :=
  ["name", "ping_at"]

/-- Arguments of an AddTask call as they reach `execute` after JSON parsing:
every field may be absent (`none` = JS `undefined`) since neither
`executeTool` (src/tools.ts) nor the executor checks the schema's
`required` list. -/
structure AddTaskArgs where
  name : Option String
  routine_id : Option String
  due_at : Option String
  ping_at : Option String
  annoyance : Option String
  requires_action : Option Bool
  deriving Repr, DecidableEq

/-- AddTask.execute (src/tools.tasks.ts): validates only the annoyance
enumeration (when truthy), builds the new task — `new Date(args.ping_at)` on a
missing `ping_at` yields an Invalid Date, `dueAt` is set only for a truthy
`due_at`, `requiresAction` defaults to false, falsy annoyance defaults to
"low" — and pushes it into the user's task list (`addUserTask`).
`newDate` abstracts the JS `Date` constructor on a string, `freshId` the
generated short id and `nowMs` the current time. -/
def AddTask_execute (newDate : String → JsDate) (freshId : String)
    (nowMs : Int) (st : List Task) (a : AddTaskArgs) :
    Except String (List Task × Task) :=
  if truthyOpt a.annoyance && !(validAnnoyance (a.annoyance.getD "")) then
    Except.error "Invalid annoyance level"
  else
    let newTask : Task :=
      ⟨freshId,
       a.name,
       a.routine_id,
       (if truthyOpt a.due_at then some (newDate (a.due_at.getD "")) else none),
       a.requires_action.getD false,
       "pending",
       (if truthyOpt a.annoyance then a.annoyance.getD "low" else "low"),
       (match a.ping_at with
        | some s => newDate s
        | none => none),
       0,
       nowMs⟩
    Except.ok (st ++ [newTask], newTask)

/-- Arguments of an UpdateTask call as they reach `execute`
(src/tools.tasks.ts); only `task_id` is declared required. -/
structure UpdateTaskArgs where
  task_id : String
  name : Option String
  status : Option String
  annoyance : Option String
  due_at : Option String
  ping_at : Option String
  requires_action : Option Bool
  deriving Repr, DecidableEq

/-- The mutation UpdateTask.execute applies through `updateUserTask`
(src/tools.tasks.ts): each supplied field overwrites the task's field; a
supplied `ping_at` also resets the status to "pending" (a falsy `ping_at`
keeps the old pingAt but still resets the status); `postponeCount` is
incremented only when `due_at` is truthy. -/
def applyUpdateTaskArgs (newDate : String → JsDate) (a : UpdateTaskArgs)
    (t0 : Task) : Task :=
  let t1 := match a.name with
    | some n => { t0 with name := some n }
    | none => t0
  let t2 := match a.status with
    | some s => { t1 with status := s }
    | none => t1
  let t3 := match a.annoyance with
    | some s => { t2 with annoyance := s }
    | none => t2
  let t4 := match a.due_at with
    | some s => { t3 with dueAt := if s != "" then some (newDate s) else none }
    | none => t3
  let t5 := match a.ping_at with
    | some s =>
        { t4 with pingAt := (if s != "" then newDate s else t4.pingAt),
                  status := "pending" }
    | none => t4
  let t6 := match a.requires_action with
    | some b => { t5 with requiresAction := b }
    | none => t5
  if truthyOpt a.due_at then { t6 with postponeCount := t6.postponeCount + 1 }
  else t6

/-- `updateUserTask` of src/userStore.ts mutates the first task whose id
matches (`Array.prototype.find`). -/
def updateFirst (taskId : String) (f : Task → Task) : List Task → List Task
  | [] => []
  | t :: ts => if t.id == taskId then f t :: ts else t :: updateFirst taskId f ts

/-- UpdateTask.execute (src/tools.tasks.ts): validates the status and
annoyance enumerations for truthy arguments, fails when the task id is
absent, otherwise applies the mutation to the stored task. -/
def UpdateTask_execute (newDate : String → JsDate) (st : List Task)
    (a : UpdateTaskArgs) : Except String (List Task) :=
  if truthyOpt a.status && !(validStatus (a.status.getD "")) then
    Except.error "Invalid status"
  else if truthyOpt a.annoyance && !(validAnnoyance (a.annoyance.getD "")) then
    Except.error "Invalid annoyance level"
  else
    match st.find? (fun t => t.id == a.task_id) with
    | none => Except.error "Task not found"
    | some _ => Except.ok (updateFirst a.task_id (applyUpdateTaskArgs newDate a) st)

/-- One accumulated tool call of the streaming loop (src/aiService.ts). -/
structure ToolCallRec where
  id : String
  name : String
  arguments : String
  deriving Repr, DecidableEq

/-- What one streamed completion pass of the model produced: the accumulated
text deltas and the accumulated complete tool calls. -/
structure ModelPass where
  text : String
  toolCalls : List ToolCallRec
  deriving Repr, DecidableEq

/-- Role of a conversation-history entry appended by `addMessageToHistory`. -/
inductive HistRole where
  | user
  | assistant
  deriving Repr, DecidableEq, BEq

/-- History entries committed at the end of one `streamAIResponseInternal`
pass (src/aiService.ts): the user message when `addUserToHistory`, then the
assistant text when `addAssistantToHistory`. -/
def passAppends (addUser addAssistant : Bool) : List HistRole :=
  (if addUser then [HistRole.user] else []) ++
  (if addAssistant then [HistRole.assistant] else [])

/-- Result of one orchestration invocation: the message returned to the
caller (the pass's own accumulated text), the number of recursive rounds
performed below it, and the history appends committed during the whole
invocation in commit order (deepest pass first). -/
structure AIRunResult where
  message : String
  rounds : Nat
  appends : List HistRole
  deriving Repr, DecidableEq

/-- AIService.streamAIResponse together with streamAIResponseInternal
(src/aiService.ts): the wrapper forces `enableToolCalls` to false once
`currentRecursionDepth` reaches 5; the pass consumes one completion (the
collaborator `model`, indexed by depth); when complete tool calls exist and
tool-calling is enabled it executes them and recurses at depth+1 with
`addUserToHistory: false` and the other options spread through unchanged;
finally it appends the history entries its own flags request.  The result's
`rounds` and `appends` fields instrument the recursion count and the
history side effects. -/
def streamAIResponse (model : Nat → ModelPass) (depth : Nat)
    (enableReq addUser addAssistant : Bool) : AIRunResult :=
  if h : (model depth).toolCalls ≠ [] ∧
      (if 5 ≤ depth then false else enableReq) = true then
    let inner := streamAIResponse model (depth + 1)
      (if 5 ≤ depth then false else enableReq) false addAssistant
    ⟨(model depth).text, inner.rounds + 1,
     inner.appends ++ passAppends addUser addAssistant⟩
  else
    ⟨(model depth).text, 0, passAppends addUser addAssistant⟩
termination_by 5 - depth
decreasing_by
  rcases h with ⟨-, h2⟩
  by_cases h5 : 5 ≤ depth
  · simp [h5] at h2
  · omega

/-- Dropping fewer elements than the length keeps the last element. -/
theorem getLast?_drop_of_lt {α : Type} (l : List α) (n : Nat)
    (h : n < l.length) : (l.drop n).getLast? = l.getLast? := by
  induction l generalizing n with
  | nil => simp at h
  | cons x xs ih =>
    cases n with
    | zero => rfl
    | succ m =>
      have hm : m < xs.length := by simpa using h
      have hne : xs ≠ [] := by
        intro he
        rw [he] at hm
        simp at hm
      rw [List.drop_succ_cons, ih m hm]
      cases xs with
      | nil => exact absurd rfl hne
      | cons y ys => rw [List.getLast?_cons_cons]

/-- Sample pending task with requiresAction = false, due at time 0. -/
def task3 : Task :=
  ⟨"d4", some "stretch", none, none, false, "pending", "low", some 0, 0, 0⟩

/-- C3: for every pending Task with requiresAction = false, when the scheduler
tick finds pingAt ≤ now it sets the task's status directly to "completed";
such a task never takes the value "needs_replanning". -/
theorem pending_no_action_completes (now : Int) (t : Task)
    (hp : t.status = "pending") (hra : t.requiresAction = false)
    (hdue : jsLe t.pingAt now = true) :
    tickTaskStatus now t = "completed" ∧
      tickTaskStatus now t ≠ "needs_replanning" := by
  simp [tickTaskStatus, hp, hra, hdue]

/-- Witness for C3 at the concrete task `task3` and tick time 10. -/
theorem pending_no_action_completes_witness :
    task3.status = "pending" ∧ task3.requiresAction = false ∧
      jsLe task3.pingAt 10 = true ∧
      (tickTaskStatus 10 task3 = "completed" ∧
        tickTaskStatus 10 task3 ≠ "needs_replanning") :=
  ⟨rfl, rfl, by decide, pending_no_action_completes 10 task3 rfl rfl (by decide)⟩

/-- Sample completed task (postponeCount 2). -/
def doneTask : Task :=
  ⟨"b2", some "ship release", none, none, false, "completed", "low", some 5, 2, 0⟩

/-- Stub for the JS Date constructor: parses every string to time 99. -/
def dateStub99 : String → JsDate := fun _ => some 99

/-- C6 counterexample: UpdateTask supplying a new ping_at on a task whose
status is "completed" sets the status back to "pending" — completed is not
terminal under the tool executors. -/
theorem updatetask_revives_completed :
    doneTask.status = "completed" ∧
    UpdateTask_execute dateStub99 [doneTask]
        ⟨"b2", none, none, none, none, some "2030-02-02T09:00:00Z", none⟩ =
      Except.ok [{ doneTask with pingAt := some 99, status := "pending" }] :=
  ⟨rfl, rfl⟩

/-- C6 (amended): "completed" and "failed" are terminal with respect to the
scheduler tick, which only acts on tasks whose status is "pending" and so
never changes a completed or failed task. -/
theorem tick_preserves_terminal (now : Int) (t : Task)
    (h : t.status = "completed" ∨ t.status = "failed") :
    tickTaskStatus now t = t.status := by
  rcases h with h | h <;> simp [tickTaskStatus, h]

/-- Witness for the amended C6 at the concrete task `doneTask`. -/
theorem tick_preserves_terminal_witness :
    (doneTask.status = "completed" ∨ doneTask.status = "failed") ∧
      tickTaskStatus 100 doneTask = doneTask.status :=
  ⟨Or.inl rfl, tick_preserves_terminal 100 doneTask (Or.inl rfl)⟩

/-- Sample due pending task with requiresAction = false. -/
def noticeTask : Task :=
  ⟨"c3", some "drink water", none, none, false, "pending", "low", some 0, 0, 0⟩

/-- C7 counterexample: the scheduler's notice for a due pending task with
requiresAction = false is emitted through an orchestration invocation whose
enableToolCalls flag is true, not false as claimed. -/
theorem tick_notice_tools_enabled :
    noticeTask.requiresAction = false ∧
    tickTaskStatus 10 noticeTask = "completed" ∧
    (tickPingInvocation noticeTask).enableToolCalls = true :=
  ⟨rfl, by decide, rfl⟩

/-- C7 (amended): for every task with requiresAction = false the scheduler's
notice invocation uses the no-action prompt, does not add the synthetic
prompt to user history, records the assistant reply, and has tool-calling
enabled. -/
theorem tick_notice_invocation (t : Task) (h : t.requiresAction = false) :
    tickPingInvocation t = ⟨true, false, true, true⟩ := by
  simp [tickPingInvocation, h]

/-- Witness for the amended C7 at the concrete task `noticeTask`. -/
theorem tick_notice_invocation_witness :
    noticeTask.requiresAction = false ∧
      tickPingInvocation noticeTask = ⟨true, false, true, true⟩ :=
  ⟨rfl, tick_notice_invocation noticeTask rfl⟩

/-- C10: addMessageToHistory keeps the history bounded: after any append the
length is min (previous + 1) 5000 — never above 5000 — the result is a suffix
of the old history plus the new entry (oldest entries are what gets dropped,
order preserved), and the entry just appended is always retained as the most
recent one. -/
theorem history_bounded (hist : List HistoryMessage) (role content : String)
    (now : Int) :
    (addMessageToHistory hist role content now).length
        = min (hist.length + 1) 5000 ∧
    List.IsSuffix (addMessageToHistory hist role content now)
        (hist ++ [⟨role, content, now⟩]) ∧
    (addMessageToHistory hist role content now).getLast?
        = some ⟨role, content, now⟩ := by
  have hlen : (hist ++ [(⟨role, content, now⟩ : HistoryMessage)]).length
      = hist.length + 1 := by simp
  simp only [addMessageToHistory]
  by_cases hc : 5000 < (hist ++ [(⟨role, content, now⟩ : HistoryMessage)]).length
  · rw [if_pos hc]
    refine ⟨?_, List.drop_suffix _ _, ?_⟩
    · rw [List.length_drop, hlen]
      rw [hlen] at hc
      omega
    · rw [getLast?_drop_of_lt _ _ (by omega)]
      simp
  · rw [if_neg hc]
    rw [hlen] at hc
    refine ⟨?_, List.suffix_refl _, by simp⟩
    rw [hlen]
    omega

/-- C9: for every value of the random jitter r ∈ [0,1), the cadence policy
yields a next ping between now+120 and now+180 minutes for annoyance "low",
between now+30 and now+60 minutes for "med", and between now+1 and now+5
minutes for "high" (times in milliseconds). -/
theorem annoyance_cadence_bounds (now r : Rat) (h0 : 0 ≤ r) (h1 : r < 1) :
    (now + 120 * 60000 ≤ nextPingAt now "low" r ∧
      nextPingAt now "low" r ≤ now + 180 * 60000) ∧
    (now + 30 * 60000 ≤ nextPingAt now "med" r ∧
      nextPingAt now "med" r ≤ now + 60 * 60000) ∧
    (now + 1 * 60000 ≤ nextPingAt now "high" r ∧
      nextPingAt now "high" r ≤ now + 5 * 60000) := by
  have elow : nextPingAt now "low" r = now + (r * 60 + 120) * 60000 := by
    simp [nextPingAt, nextPingMinutes]
  have emed : nextPingAt now "med" r = now + (r * 30 + 30) * 60000 := by
    simp [nextPingAt, nextPingMinutes]
  have ehigh : nextPingAt now "high" r = now + (r * 4 + 1) * 60000 := by
    simp [nextPingAt, nextPingMinutes]
  refine ⟨⟨?_, ?_⟩, ⟨?_, ?_⟩, ⟨?_, ?_⟩⟩ <;>
    first
      | (rw [elow]; nlinarith)
      | (rw [emed]; nlinarith)
      | (rw [ehigh]; nlinarith)

/-- Witness for C9 at now = 0 and jitter r = 1/2. -/
theorem annoyance_cadence_bounds_witness :
    ((0:Rat) ≤ 1/2 ∧ (1:Rat)/2 < 1) ∧
    (((0:Rat) + 120 * 60000 ≤ nextPingAt 0 "low" (1/2) ∧
      nextPingAt 0 "low" (1/2) ≤ 0 + 180 * 60000) ∧
    ((0:Rat) + 30 * 60000 ≤ nextPingAt 0 "med" (1/2) ∧
      nextPingAt 0 "med" (1/2) ≤ 0 + 60 * 60000) ∧
    ((0:Rat) + 1 * 60000 ≤ nextPingAt 0 "high" (1/2) ∧
      nextPingAt 0 "high" (1/2) ≤ 0 + 5 * 60000)) :=
  ⟨⟨by norm_num, by norm_num⟩,
    annoyance_cadence_bounds 0 (1/2) (by norm_num) (by norm_num)⟩

/-- Bound on recursive rounds of the orchestration loop, by induction on the
remaining depth budget. -/
theorem streamAIResponse_rounds_le_aux :
    ∀ (n depth : Nat), 5 - depth ≤ n →
      ∀ (model : Nat → ModelPass) (e au aa : Bool),
        (streamAIResponse model depth e au aa).rounds ≤ 5 - depth := by
  intro n
  induction n with
  | zero =>
    intro depth h model e au aa
    have h5 : 5 ≤ depth := by omega
    rw [streamAIResponse]
    simp [h5]
  | succ n ih =>
    intro depth h model e au aa
    by_cases h5 : 5 ≤ depth
    · rw [streamAIResponse]
      simp [h5]
    · rw [streamAIResponse]
      simp only [h5, if_false]
      split
      · have hih := ih (depth + 1) (by omega) model e false aa
        dsimp only
        omega
      · simp

/-- C1: for every orchestration invocation — any completion service behavior,
including one that emits a tool call on every pass — the recursive
tool-calling loop performs at most 5 recursive rounds from depth 0, because
the wrapper force-disables tool-calling once the depth reaches 5; the loop is
a total function, so it always terminates with a plain-text message. -/
theorem orchestration_loop_depth_capped (model : Nat → ModelPass)
    (enableReq addUser addAssistant : Bool) :
    (streamAIResponse model 0 enableReq addUser addAssistant).rounds ≤ 5 :=
  streamAIResponse_rounds_le_aux 5 0 (by omega) model enableReq addUser addAssistant

/-- Completion-service behavior that emits one tool call on the first pass
and plain text afterwards. -/
def toolOnFirstPassModel : Nat → ModelPass :=
  fun d =>
    if d == 0 then ⟨"", [⟨"call1", "get_current_time", ""⟩]⟩ else ⟨"done", []⟩

/-- C8: at the failing input — an external invocation with both history flags
true whose model emits a tool call at depth 0 and plain text at depth 1 —
the code appends one user entry but two assistant entries (the recursive call
sets addUserToHistory to false yet leaves addAssistantToHistory true, so the
inner pass also commits an assistant entry). -/
theorem recursive_pass_double_assistant_append :
    ((streamAIResponse toolOnFirstPassModel 0 true true true).appends.count
        HistRole.user = 1) ∧
    ((streamAIResponse toolOnFirstPassModel 0 true true true).appends.count
        HistRole.assistant = 2) := by
  have happ : (streamAIResponse toolOnFirstPassModel 0 true true true).appends
      = [HistRole.assistant, HistRole.user, HistRole.assistant] := by
    rw [streamAIResponse, streamAIResponse]
    simp [toolOnFirstPassModel, passAppends]
  rw [happ]
  decide

/-- C2 counterexample: an hourly routine whose firing instant 3600000
coincides with a tick time materializes one task at that tick and a second
task at the tick exactly 60000 ms later, because the window check
`timeSinceLastFire <= 60000` is inclusive — two Tasks for one firing
instant. -/
theorem routine_double_fire_at_window_boundary :
    tasksForInstant hourlyLastOcc [3600000, 3660000] 3600000 = 2 := by
  decide

/-- In a Nodup list on which at most one element can satisfy `p`, the filter
keeps at most one element. -/
theorem filter_length_le_one {α : Type} [DecidableEq α] (l : List α)
    (p : α → Bool) (hnd : l.Nodup)
    (huniq : ∀ a ∈ l, ∀ b ∈ l, p a = true → p b = true → a = b) :
    (l.filter p).length ≤ 1 := by
  induction l with
  | nil => simp
  | cons x xs ih =>
    rcases List.nodup_cons.mp hnd with ⟨hx, hxs⟩
    by_cases hpx : p x = true
    · have hnil : xs.filter p = [] := by
        apply List.filter_eq_nil_iff.mpr
        intro a ha hpa
        have hax : a = x :=
          huniq a (List.mem_cons_of_mem _ ha) x (List.mem_cons_self _ _)
            (by simpa using hpa) hpx
        exact hx (hax ▸ ha)
      rw [List.filter_cons_of_pos hpx, hnil]
      simp
    · rw [List.filter_cons_of_neg (by simpa using hpx)]
      exact ih hxs fun a ha b hb hpa hpb =>
        huniq a (List.mem_cons_of_mem _ ha) b (List.mem_cons_of_mem _ hb) hpa hpb

/-- C2 (amended): over per-minute ticks on a fixed grid (all tick times
congruent mod 60000, pairwise distinct), a firing instant that does not lie
exactly on the tick grid materializes at most one Task; a second Task for the
same instant can arise only when the instant coincides with a tick time, via
the inclusive 60000 ms window boundary.  `lastOcc` is any most-recent-
occurrence function (`lastOcc t ≤ t`). -/
theorem routine_single_fire_off_grid (lastOcc : Nat → Nat) (ticks : List Nat)
    (t0 f : Nat)
    (hlaw : ∀ t, lastOcc t ≤ t)
    (hgrid : ∀ t ∈ ticks, t % 60000 = t0 % 60000)
    (hnd : ticks.Nodup)
    (hf : f % 60000 ≠ t0 % 60000) :
    tasksForInstant lastOcc ticks f ≤ 1 := by
  unfold tasksForInstant
  apply filter_length_le_one _ _ hnd
  intro a ha b hb hpa hpb
  rw [Bool.and_eq_true] at hpa hpb
  have hfa : lastOcc a = f := by
    have := hpa.2
    simpa using this
  have hfb : lastOcc b = f := by
    have := hpb.2
    simpa using this
  have hwa : a - lastOcc a ≤ 60000 := by
    have := hpa.1
    simpa [routineFires] using this
  have hwb : b - lastOcc b ≤ 60000 := by
    have := hpb.1
    simpa [routineFires] using this
  have hla : lastOcc a ≤ a := hlaw a
  have hlb : lastOcc b ≤ b := hlaw b
  have hga : a % 60000 = t0 % 60000 := hgrid a ha
  have hgb : b % 60000 = t0 % 60000 := hgrid b hb
  rw [hfa] at hwa hla
  rw [hfb] at hwb hlb
  omega

/-- Witness for the amended C2: ticks at 3630000 and 3690000 (a per-minute
grid offset 30000 from the hourly firing instant 3600000) fire the hourly
routine at most once. -/
theorem routine_single_fire_off_grid_witness :
    (∀ t ∈ [3630000, 3690000], t % 60000 = 3630000 % 60000) ∧
      tasksForInstant hourlyLastOcc [3630000, 3690000] 3600000 ≤ 1 :=
  ⟨by decide,
    routine_single_fire_off_grid hourlyLastOcc [3630000, 3690000] 3630000
      3600000 hourlyLastOcc_le (by decide) (by decide) (by decide)⟩

/-- Stub for the JS Date constructor that parses nothing (never consulted by
the AddTask failing input, which supplies no date strings). -/
def invalidDateStub : String → JsDate := fun _ => none

/-- AddTask arguments with every field absent — in particular both required
fields, name and ping_at, are missing. -/
def emptyAddTaskArgs : AddTaskArgs := ⟨none, none, none, none, none, none⟩

/-- C4: at the failing input — an AddTask call whose arguments omit both
required fields — the executor does not fail with a ValidationError: it
succeeds and mutates the store, appending a task whose name is undefined and
whose pingAt is an Invalid Date. -/
theorem addtask_missing_required_mutates_store :
    "name" ∈ AddTask_required ∧ "ping_at" ∈ AddTask_required ∧
    AddTask_execute invalidDateStub "t1" 0 [] emptyAddTaskArgs =
      Except.ok
        ([⟨"t1", none, none, none, false, "pending", "low", none, 0, 0⟩],
          ⟨"t1", none, none, none, false, "pending", "low", none, 0, 0⟩) :=
  ⟨by decide, by decide, rfl⟩

/-- Sample needs_replanning task with postponeCount 0. -/
def replanTask : Task :=
  ⟨"a1", some "write report", none, none, true, "needs_replanning", "med",
    some 10, 0, 0⟩

/-- C5 counterexample: rescheduling a needs_replanning task through UpdateTask
with only a new ping_at sets the status back to "pending" and updates pingAt,
but leaves postponeCount unchanged at 0 instead of incrementing it — the
executor increments postponeCount only when due_at is supplied. -/
theorem updatetask_reschedule_postpone_unchanged :
    replanTask.postponeCount = 0 ∧
    UpdateTask_execute dateStub99 [replanTask]
        ⟨"a1", none, none, none, none, some "2030-01-01T10:00:00Z", none⟩ =
      Except.ok [{ replanTask with pingAt := some 99, status := "pending" }] :=
  ⟨rfl, rfl⟩

/-- C5 (amended): for every task in the store, an UpdateTask supplying only a
truthy new ping_at returns the status to "pending" and sets pingAt to the
parsed supplied time, while every other field — postponeCount included — is
unchanged; postponeCount is incremented only when due_at is also supplied. -/
theorem updatetask_reschedule_pending (newDate : String → JsDate) (t : Task)
    (s : String) (hs : s ≠ "") :
    UpdateTask_execute newDate [t] ⟨t.id, none, none, none, none, some s, none⟩ =
      Except.ok [{ t with pingAt := newDate s, status := "pending" }] := by
  simp [UpdateTask_execute, truthyOpt, List.find?, updateFirst,
    applyUpdateTaskArgs, hs]

/-- Witness for the amended C5 at the concrete task `replanTask`. -/
theorem updatetask_reschedule_pending_witness :
    ("2030-01-01T10:00:00Z" ≠ "") ∧
    UpdateTask_execute dateStub99 [replanTask]
        ⟨replanTask.id, none, none, none, none,
          some "2030-01-01T10:00:00Z", none⟩ =
      Except.ok [{ replanTask with
        pingAt := dateStub99 "2030-01-01T10:00:00Z", status := "pending" }] :=
  ⟨by decide,
    updatetask_reschedule_pending dateStub99 replanTask "2030-01-01T10:00:00Z"
      (by decide)⟩

end YAM
